import Mathlib

/-!
Verification of the breast-cancer ultrasound classification app.

Shallow embedding, in Lean, of the parts of the repository that the
specification's testable properties are about:

* `src/preprocess.py` / `pages/Prediction.py` — center-crop-and-resize
  image preprocessing (`center_crop_resize`, `CenterCropSquare`);
* `src/utils/grad_cam.py` — the Grad-CAM saliency computation
  (`GradCAM.__call__`) and the heatmap overlay renderer
  (`overlay_heatmap`);
* `src/utils/db_utils.py` — the SQLite-backed prediction store
  (`_ensure_prediction_columns`, `log_prediction`, `create_user`,
  `authenticate_user`);
* `src/utils/analytics.py` — read-side aggregations
  (`get_confidence_distribution`, `get_average_confidence`,
  `get_model_performance_summary`, `get_model_accuracy_with_feedback`).

Python floats are modelled as rationals (`ℚ`), SQLite NULL as `Option`,
tables as Lean lists of row structures, and exceptions as `Option`/`Except`
results.  Machine-level float rounding is outside the model; all arithmetic
facts proved here hold of the exact (rational) computation the code writes.
-/

/- ===================== Image preprocessing (src/preprocess.py) ============ -/

/-- An RGB image: width, height, and a pixel function returning one
`(r, g, b)` triple per coordinate (so there are always exactly 3 channels,
as after `Image.convert("RGB")`). Coordinates outside `[0,w) × [0,h)` are
never consulted by the operations modelled here. -/
structure Img where
  w : ℕ
  h : ℕ
  px : ℕ → ℕ → ℕ × ℕ × ℕ

/-- PIL `img.crop((left, top, right, bottom))`: the result has width
`right - left`, height `bottom - top`, and pixel `(x, y)` taken from
`(left + x, top + y)` of the source. -/
def Img.crop (img : Img) (left top right bottom : ℕ) : Img :=
  { w := right - left
    h := bottom - top
    px := fun x y => img.px (left + x) (top + y) }

/-- PIL `img.resize((w, h))`: the result has exactly the requested
dimensions.  PIL interpolates pixel content with a resampling filter; the
content is abstracted here by coordinate sampling, since the properties
under verification concern only the dimensions and the crop geometry. -/
def Img.resize (img : Img) (w h : ℕ) : Img :=
  { w := w
    h := h
    px := fun x y => img.px (x * img.w / w) (y * img.h / h) }

/-- The `center_crop_resize` from `src/preprocess.py` (the same arithmetic as
`CenterCropSquare` + `Resize((224,224))` in `pages/Prediction.py`):
crop the largest centered square of side `m = min w h` at
`left = (w - m) / 2`, `top = (h - m) / 2`, then resize to `size × size`. -/
def center_crop_resize (img : Img) (size : ℕ) : Img :=
  let m := min img.w img.h
  let left := (img.w - m) / 2
  let top := (img.h - m) / 2
  (img.crop left top (left + m) (top + m)).resize size size

/- ============ Schema migration (src/utils/db_utils.py, lines 81-95) ====== -/

/-- The `wanted` dict of `_ensure_prediction_columns`: the optional
metadata columns and their SQL types, in the dict's insertion order. -/
def wantedColumns : List (String × String) :=
  [("model_version", "TEXT"),
   ("report_path", "TEXT"),
   ("probabilities", "TEXT"),
   ("patient_id", "TEXT"),
   ("confidence_score", "REAL"),
   ("processing_time_ms", "INTEGER")]

/-- The `ALTER TABLE predictions ADD COLUMN c t`: appends the column, but fails
(SQLite raises `OperationalError: duplicate column name`) if a column of
that name already exists. -/
def alterAddColumn (cols : List String) (c : String) : Option (List String) :=
  if c ∈ cols then none else some (cols ++ [c])

/-- Inner loop of `_ensure_prediction_columns`: walk `wanted`, and for each
column not in the `cols` snapshot taken by `PRAGMA table_info` before the
loop, issue `ALTER TABLE ... ADD COLUMN`.  `none` models an uncaught
`OperationalError` from a duplicate add. -/
def ensureColumnsLoop (snapshot : List String) :
    List (String × String) → List String → Option (List String)
  | [], cols => some cols
  | cw :: rest, cols =>
    if cw.1 ∈ snapshot then ensureColumnsLoop snapshot rest cols
    else
      match alterAddColumn cols cw.1 with
      | none => none
      | some cols' => ensureColumnsLoop snapshot rest cols'

/-- The `_ensure_prediction_columns(cur)`: snapshot the current column set with
`PRAGMA table_info(predictions)`, then add every missing wanted column. -/
def ensurePredictionColumns (cols : List String) : Option (List String) :=
  ensureColumnsLoop cols wantedColumns cols

/-- Iterating `_ensure_prediction_columns` N times (each run re-reads the
column set; a run that fails aborts the chain). -/
def ensurePredictionColumnsIter : ℕ → List String → Option (List String)
  | 0, cols => some cols
  | n + 1, cols =>
    match ensurePredictionColumns cols with
    | none => none
    | some cols' => ensurePredictionColumnsIter n cols'

/- ====== Grad-CAM saliency (src/utils/grad_cam.py, GradCAM.__call__) ====== -/

/-- The captured activations / gradients of the target layer for the batch
element that `cam[0]` extracts: a `C × (H+1) × (W+1)` tensor of rationals.
The spatial dimensions are written `H+1`, `W+1` because a convolutional
stage's output has positive spatial extent (7×7 here), and
`torch.amin`/`amax` over an empty dimension would itself raise. -/
def Tensor3 (C H W : ℕ) : Type :=
  Fin C → Fin (H + 1) → Fin (W + 1) → ℚ

/-- The `weights = torch.mean(self.gradients, dim=(2,3))`: the spatial average
of the captured gradient, per channel. -/
def gradWeight (C H W : ℕ) (grad : Tensor3 C H W) (c : Fin C) : ℚ :=
  (∑ i : Fin (H + 1), ∑ j : Fin (W + 1), grad c i j) / ((H + 1) * (W + 1))

/-- The `cam = torch.relu(torch.sum(weights * self.activations, dim=1))`: the
weighted sum of activation channels, negatives clamped to zero. -/
def camRaw (C H W : ℕ) (act grad : Tensor3 C H W) (i : Fin (H + 1))
    (j : Fin (W + 1)) : ℚ :=
  max 0 (∑ c : Fin C, gradWeight C H W grad c * act c i j)

/-- The `cam.amin(dim=(1,2))`: the minimum entry of the raw map. -/
def camMin (C H W : ℕ) (act grad : Tensor3 C H W) : ℚ :=
  Finset.univ.inf' Finset.univ_nonempty
    (fun p : Fin (H + 1) × Fin (W + 1) => camRaw C H W act grad p.1 p.2)

/-- The `cam.amax(dim=(1,2))`: the maximum entry of the raw map. -/
def camMax (C H W : ℕ) (act grad : Tensor3 C H W) : ℚ :=
  Finset.univ.sup' Finset.univ_nonempty
    (fun p : Fin (H + 1) × Fin (W + 1) => camRaw C H W act grad p.1 p.2)

/-- The epsilon `1e-8` guarding the normalization denominator. -/
def camEps : ℚ := 1 / 100000000

/-- The `cam = (cam - cam_min) / (cam_max - cam_min + 1e-8)`: the min-max
normalized saliency map. -/
def camNorm (C H W : ℕ) (act grad : Tensor3 C H W) (i : Fin (H + 1))
    (j : Fin (W + 1)) : ℚ :=
  (camRaw C H W act grad i j - camMin C H W act grad) /
    (camMax C H W act grad - camMin C H W act grad + camEps)

/-- The `GradCAM.__call__(x, class_idx)`: the forward pass stores the target
layer's activations `act`; backpropagating the score of class
`class_idx` (or of the model's top prediction `argmaxIdx` when
`class_idx is None`) stores a gradient tensor, modelled by the family
`gradOf` indexed by the chosen class.  The result is the normalized 2-D
map — its index type is `Fin (H+1) → Fin (W+1)`, the target layer's
spatial resolution, for every choice of `class_idx`. -/
def gradCamCall (C H W : ℕ) (act : Tensor3 C H W) (gradOf : ℕ → Tensor3 C H W)
    (argmaxIdx : ℕ) (class_idx : Option ℕ) :
    Fin (H + 1) → Fin (W + 1) → ℚ :=
  fun i j => camNorm C H W act (gradOf (class_idx.getD argmaxIdx)) i j

/- ====== Heatmap overlay (src/utils/grad_cam.py, overlay_heatmap) ========= -/

/-- A single-channel matrix of rationals with positive dimensions
(`(h+1) × (w+1)`). -/
structure Mat1 (h w : ℕ) where
  px : Fin (h + 1) → Fin (w + 1) → ℚ

/-- A 3-channel matrix of rationals with positive dimensions. -/
structure Mat3 (h w : ℕ) where
  px : Fin (h + 1) → Fin (w + 1) → ℚ × ℚ × ℚ

/-- Apply a function to each channel of an RGB triple. -/
def mapTriple (f : ℚ → ℚ) : ℚ × ℚ × ℚ → ℚ × ℚ × ℚ :=
  fun t => (f t.1, f t.2.1, f t.2.2)

/-- Truncation toward zero, as a C float-to-integer cast performs
(`num.tdiv den` is exactly the integer part of `num/den`, rounded toward
zero). -/
def truncToInt (q : ℚ) : ℤ :=
  q.num.tdiv (q.den : ℤ)

/-- The `np.uint8(x)` / `.astype(np.uint8)` elementwise: truncate toward zero
and wrap modulo 256. -/
def npUint8 (q : ℚ) : ℚ :=
  ((truncToInt q % 256).toNat : ℚ)

/-- The `cv2.resize(heatmap, (w, h))`: the result has exactly the requested
dimensions; cv2 interpolates the content (bilinear by default), abstracted
here by coordinate sampling — the verified properties depend only on the
dimensions and on the value range, which sampling preserves. -/
def cvResize (sh sw : ℕ) (src : Mat1 sh sw) (h w : ℕ) : Mat1 h w :=
  { px := fun i j =>
      src.px
        ⟨i.val * (sh + 1) / (h + 1), by
          refine (Nat.div_lt_iff_lt_mul (Nat.succ_pos h)).mpr ?_
          have hi : i.val < h + 1 := i.isLt
          nlinarith⟩
        ⟨j.val * (sw + 1) / (w + 1), by
          refine (Nat.div_lt_iff_lt_mul (Nat.succ_pos w)).mpr ?_
          have hj : j.val < w + 1 := j.isLt
          nlinarith⟩ }

/-- The `image_rgb.max()`: the maximum entry of the image over all pixels and
all three channels. -/
def matMax (h w : ℕ) (m : Mat3 h w) : ℚ :=
  Finset.univ.sup' Finset.univ_nonempty
    (fun p : Fin (h + 1) × Fin (w + 1) =>
      max (m.px p.1 p.2).1 (max (m.px p.1 p.2).2.1 (m.px p.1 p.2).2.2))

/-- The `if image_rgb.max() <= 1` branch of `overlay_heatmap`: an image
whose maximum entry is ≤ 1 is scaled `(image_rgb * 255)` and cast to
`uint8`; any other image is cast to `uint8` unscaled.  The branch depends
only on the maximum value, never on the array's dtype. -/
def overlayBase (h w : ℕ) (image_rgb : Mat3 h w) : Mat3 h w :=
  if matMax h w image_rgb ≤ 1 then
    { px := fun i j => mapTriple (fun q => npUint8 (q * 255)) (image_rgb.px i j) }
  else
    { px := fun i j => mapTriple npUint8 (image_rgb.px i j) }

/-- cv2's `saturate_cast<uchar>` composed with its rounding: round to the
nearest integer, clamp into `[0, 255]`. -/
def satCastU8 (q : ℚ) : ℚ :=
  (min 255 (Int.toNat ⌊q + 1 / 2⌋) : ℕ)

/-- The `cv2.addWeighted(src1, a, src2, b, 0)` on one channel value:
`saturate(round(a·x + b·y))`. -/
def addWeighted1 (a : ℚ) (x : ℚ) (b : ℚ) (y : ℚ) : ℚ :=
  satCastU8 (a * x + b * y)

/-- The `cv2.cvtColor(·, cv2.COLOR_BGR2RGB)` on one pixel: swap the first and
third channels. -/
def bgr2rgb (t : ℚ × ℚ × ℚ) : ℚ × ℚ × ℚ :=
  (t.2.2, t.2.1, t.1)

/-- The `overlay_heatmap(image_rgb, heatmap, alpha)` from
`src/utils/grad_cam.py`.  `cmap` is cv2's `COLORMAP_JET` lookup table
(a fixed map from a `uint8` value to a BGR `uint8` triple); it is a
parameter because the verified properties hold for every colormap whose
entries are bytes.  Steps, as in the source: resize the heatmap to the
image's `(w, h)`; scale by 255 and cast to `uint8`; apply the colormap;
convert BGR→RGB; pick the base by the max-value rule; alpha-blend with
`cv2.addWeighted(base, 1 - alpha, heatmap_color, alpha, 0)`. -/
def overlay_heatmap (h w sh sw : ℕ) (cmap : ℚ → ℚ × ℚ × ℚ)
    (image_rgb : Mat3 h w) (heatmap : Mat1 sh sw) (alpha : ℚ) : Mat3 h w :=
  let heatmap_resized := cvResize sh sw heatmap h w
  let heatmap_uint8 : Mat1 h w := { px := fun i j => npUint8 (255 * heatmap_resized.px i j) }
  let heatmap_color : Mat3 h w := { px := fun i j => bgr2rgb (cmap (heatmap_uint8.px i j)) }
  let base := overlayBase h w image_rgb
  { px := fun i j =>
      ((addWeighted1 (1 - alpha) (base.px i j).1 alpha (heatmap_color.px i j).1),
       (addWeighted1 (1 - alpha) (base.px i j).2.1 alpha (heatmap_color.px i j).2.1),
       (addWeighted1 (1 - alpha) (base.px i j).2.2 alpha (heatmap_color.px i j).2.2)) }

/- ================= JSON encoding of the probabilities dict =============== -/

/-- A JSON value (the shape `json.dumps`/`json.loads` exchange with the
`probabilities TEXT` column; the concrete text form is abstracted to the
tree, numeric values as exact rationals). -/
inductive Json where
  | null : Json
  | num : ℚ → Json
  | str : String → Json
  | arr : List Json → Json
  | obj : List (String × Json) → Json

/-- The `json.dumps(probabilities)` for a class→probability dict, modelled as
an association list in insertion order (Python dicts preserve it). -/
def jsonDumpsProbs (ps : List (String × ℚ)) : Json :=
  Json.obj (ps.map fun kv => (kv.1, Json.num kv.2))

/-- Decode the entries of a JSON object as a class→probability dict. -/
def decodeProbEntries : List (String × Json) → Option (List (String × ℚ))
  | [] => some []
  | (k, Json.num q) :: rest =>
    match decodeProbEntries rest with
    | some ps => some ((k, q) :: ps)
    | none => none
  | _ => none

/-- The `json.loads` of a probabilities payload, back to a class→probability
dict; anything that is not an object of numbers fails (the caller's
`except: pass` then leaves the field `None`). -/
def jsonLoadsProbs : Json → Option (List (String × ℚ))
  | Json.obj kvs => decodeProbEntries kvs
  | _ => none

/- ============== Prediction store (src/utils/db_utils.py) ================= -/

/-- bcrypt's `hashpw(password, gensalt())` output, modelled by its library
contract: a sealed token from which `checkpw` can verify exactly the
original password.  (bcrypt is an external dependency of the repository;
only this contract is relied on by `create_user`/`authenticate_user`.) -/
structure BcryptHash where
  salt : ℕ
  secret : String
deriving DecidableEq, Repr

/-- The `bcrypt.hashpw(password.encode(), bcrypt.gensalt())`. -/
def bcryptHashpw (password : String) (salt : ℕ) : BcryptHash :=
  { salt := salt, secret := password }

/-- The `bcrypt.checkpw(candidate.encode(), stored)`: true exactly when the
candidate equals the hashed password. -/
def bcryptCheckpw (candidate : String) (stored : BcryptHash) : Bool :=
  candidate == stored.secret

/-- One row of the `predictions` table, after the optional metadata columns
have been ensured.  `Option` models SQL NULL; `created_at` is the row's
`CURRENT_TIMESTAMP` on a discrete clock. -/
structure PredRow where
  id : ℕ
  filename : String
  predicted_label : String
  confidence : Option ℚ
  user : Option String
  created_at : ℕ
  model_version : Option String
  probabilities : Option Json
  patient_id : Option String
  processing_time_ms : Option ℤ
  report_path : Option String
  confidence_score : Option ℚ

/-- One row of the `prediction_feedback` table. -/
structure FeedbackRow where
  id : ℕ
  prediction_id : ℕ
  user : String
  feedback_type : String
  actual_label : Option String
  notes : Option String
  created_at : ℕ

/-- The SQLite database file: the four tables, plus the id/timestamp
generators (`AUTOINCREMENT` counter and a discrete clock — SQLite's
`CURRENT_TIMESTAMP`, modelled as strictly increasing across inserts). -/
structure Db where
  predictions : List PredRow
  feedback : List FeedbackRow
  users : List (String × BcryptHash)
  nextId : ℕ
  clock : ℕ
  nextSalt : ℕ

/-- A freshly `init_db`-ed, empty database. -/
def emptyDb : Db :=
  { predictions := [], feedback := [], users := [], nextId := 1, clock := 0, nextSalt := 0 }

/-- The store is well-formed when every existing row's timestamp is in the
past of the clock (true of every state reachable from `emptyDb`). -/
def DbWf (db : Db) : Prop :=
  ∀ r ∈ db.predictions, r.created_at < db.clock

/-- The keyword arguments of `log_prediction`. -/
structure LogArgs where
  filename : String
  predicted_label : String
  confidence : ℚ
  user : Option String
  model_version : Option String
  probabilities : Option (List (String × ℚ))
  patient_id : Option String
  processing_time_ms : Option ℤ

/-- The row `log_prediction` inserts: the mandatory columns, each supplied
optional column (`probabilities` JSON-serialized), and the
`confidence_score` mirror of `confidence`; omitted optional columns stay
NULL. -/
def logPredictionRow (db : Db) (a : LogArgs) : PredRow :=
  { id := db.nextId
    filename := a.filename
    predicted_label := a.predicted_label
    confidence := some a.confidence
    user := a.user
    created_at := db.clock
    model_version := a.model_version
    probabilities := a.probabilities.map jsonDumpsProbs
    patient_id := a.patient_id
    processing_time_ms := a.processing_time_ms
    report_path := none
    confidence_score := some a.confidence }

/-- The `log_prediction(...)` from `src/utils/db_utils.py`: insert one row and
return the new row's id (`cur.lastrowid`). -/
def log_prediction (db : Db) (a : LogArgs) : ℕ × Db :=
  (db.nextId,
   { db with
       predictions := db.predictions ++ [logPredictionRow db a]
       nextId := db.nextId + 1
       clock := db.clock + 1 })

/-- The `create_user(username, password)`: `INSERT INTO users`; the UNIQUE
constraint on `username` raises `sqlite3.IntegrityError` on a duplicate,
which the function catches and converts to `False` — the table is then
unchanged.  On success the row is inserted and `True` returned. -/
def create_user (db : Db) (username password : String) : Bool × Db :=
  if db.users.any (fun u => u.1 == username) then
    (false, db)
  else
    (true,
     { db with
         users := db.users ++ [(username, bcryptHashpw password db.nextSalt)]
         nextSalt := db.nextSalt + 1 })

/-- The `authenticate_user(username, password)`: fetch the stored hash for the
username (no row → `False`), then `bcrypt.checkpw`. -/
def authenticate_user (db : Db) (username password : String) : Bool :=
  match db.users.find? (fun u => u.1 == username) with
  | none => false
  | some u => bcryptCheckpw password u.2

/- ================= Analytics reads (src/utils/analytics.py) ============== -/

/-- The `ORDER BY created_at DESC` as a relation on prediction rows. -/
def createdDesc (a b : PredRow) : Prop :=
  b.created_at ≤ a.created_at

instance : DecidableRel createdDesc :=
  fun a b => Nat.decLe b.created_at a.created_at

instance : IsTotal PredRow createdDesc :=
  ⟨fun a b => Nat.le_total b.created_at a.created_at⟩

instance : IsTrans PredRow createdDesc :=
  ⟨fun _ _ _ hab hbc => Nat.le_trans hbc hab⟩

/-- The `SELECT ... FROM predictions ORDER BY created_at DESC`. -/
def sortByCreatedDesc (rows : List PredRow) : List PredRow :=
  List.insertionSort createdDesc rows

/-- The record shape `get_recent_predictions_full` returns per row. -/
structure PredFull where
  id : ℕ
  filename : String
  predicted_label : String
  confidence : Option ℚ
  user : Option String
  created_at : ℕ
  model_version : Option String
  probabilities : Option (List (String × ℚ))
  patient_id : Option String
  processing_time_ms : Option ℤ

/-- The per-row decoding in `get_recent_predictions_full`: copy the
columns; `if r[7]:` decode the probabilities JSON (a NULL column — and a
decode failure, via `except: pass` — leaves the field `None`). -/
def decodeFullRow (r : PredRow) : PredFull :=
  { id := r.id
    filename := r.filename
    predicted_label := r.predicted_label
    confidence := r.confidence
    user := r.user
    created_at := r.created_at
    model_version := r.model_version
    probabilities :=
      match r.probabilities with
      | none => none
      | some j => jsonLoadsProbs j
    patient_id := r.patient_id
    processing_time_ms := r.processing_time_ms }

/-- The `get_recent_predictions_full(limit)`: the newest `limit` rows by
`created_at`, decoded. -/
def get_recent_predictions_full (db : Db) (limit : ℕ) : List PredFull :=
  ((sortByCreatedDesc db.predictions).take limit).map decodeFullRow

/-- SQL `AVG` over a column: NULLs are ignored (the caller filters them
out), and the aggregate itself is NULL on an empty set. -/
def sqlAvg (l : List ℚ) : Option ℚ :=
  match l with
  | [] => none
  | _ => some (l.sum / l.length)

/-- The `get_total_users()`. -/
def get_total_users (db : Db) : ℕ :=
  db.users.length

/-- The `get_total_predictions()`. -/
def get_total_predictions (db : Db) : ℕ :=
  db.predictions.length

/-- The `GROUP BY` a list of keys with `COUNT(*)` per group (group order is a
modelling convenience; SQLite leaves it unspecified without `ORDER BY`). -/
def groupCounts (labels : List String) : List (String × ℕ) :=
  labels.dedup.map (fun l => (l, (labels.filter (fun x => x == l)).length))

/-- The `get_predictions_by_class()`: per-label counts (the query's
`ORDER BY count DESC` breaks ties arbitrarily; on the empty store, which
is what is verified here, the result is `[]` under any order). -/
def get_predictions_by_class (db : Db) : List (String × ℕ) :=
  groupCounts (db.predictions.map (fun r => r.predicted_label))

/-- The `get_average_confidence()`: `AVG(confidence)`, with Python's
`result if result is not None else 0.0`. -/
def get_average_confidence (db : Db) : ℚ :=
  (sqlAvg (db.predictions.filterMap (fun r => r.confidence))).getD 0

/-- The dict returned by `get_model_performance_summary()`. -/
structure PerfSummary where
  total_predictions : ℕ
  average_confidence : ℚ
  min_confidence : ℚ
  max_confidence : ℚ
  class_distribution : List (String × ℕ)
  average_processing_time_ms : ℚ

/-- SQL `MIN`/`MAX` over a column (NULL on an empty set). -/
def sqlMin (l : List ℚ) : Option ℚ :=
  match l with
  | [] => none
  | x :: xs => some (xs.foldl min x)

def sqlMax (l : List ℚ) : Option ℚ :=
  match l with
  | [] => none
  | x :: xs => some (xs.foldl max x)

/-- The `get_model_performance_summary()`: overall count/avg/min/max of
confidence, per-class counts, and the average of the non-NULL
`processing_time_ms`.  Python's `x if x else 0` falsy-guards coincide with
`Option.getD 0` here because a present value of `0`/`0.0` maps to `0`
either way. -/
def get_model_performance_summary (db : Db) : PerfSummary :=
  let confs := db.predictions.filterMap (fun r => r.confidence)
  let times := db.predictions.filterMap (fun r => r.processing_time_ms)
  { total_predictions := db.predictions.length
    average_confidence := (sqlAvg confs).getD 0
    min_confidence := (sqlMin confs).getD 0
    max_confidence := (sqlMax confs).getD 0
    class_distribution := groupCounts (db.predictions.map (fun r => r.predicted_label))
    average_processing_time_ms := (sqlAvg (times.map (fun t => (t : ℚ)))).getD 0 }

/-- The dict returned by `get_model_accuracy_with_feedback()`. -/
structure AccuracySummary where
  total_reviewed : ℕ
  correct_count : ℕ
  incorrect_count : ℕ
  accuracy : ℚ
  sample_size : ℕ

/-- The `INNER JOIN` of predictions with their feedback rows, restricted
to `feedback_type IN ('correct', 'incorrect')`. -/
def reviewedRows (db : Db) : List (PredRow × FeedbackRow) :=
  db.predictions.flatMap (fun p =>
    (db.feedback.filter (fun f =>
      f.prediction_id == p.id &&
        (f.feedback_type == "correct" || f.feedback_type == "incorrect"))).map
      (fun f => (p, f)))

/-- The `get_model_accuracy_with_feedback()`: zeros when no reviewed rows
exist; otherwise counts and the percentage `correct / total * 100`. -/
def get_model_accuracy_with_feedback (db : Db) : AccuracySummary :=
  let results := reviewedRows db
  match results with
  | [] =>
    { total_reviewed := 0, correct_count := 0, incorrect_count := 0
      accuracy := 0, sample_size := 0 }
  | _ =>
    let correct := (results.filter (fun r => r.2.feedback_type == "correct")).length
    let incorrect := (results.filter (fun r => r.2.feedback_type == "incorrect")).length
    let total := results.length
    { total_reviewed := total, correct_count := correct, incorrect_count := incorrect
      accuracy := (correct : ℚ) / (total : ℚ) * 100, sample_size := total }

/-- The `get_feedback_stats()`: per-type feedback counts plus a `'total'`
entry. -/
def get_feedback_stats (db : Db) : List (String × ℕ) :=
  groupCounts (db.feedback.map (fun f => f.feedback_type)) ++
    [("total", db.feedback.length)]

/-- The `CASE` expression of `get_confidence_distribution()`: the fixed
bucket edges `< 0.5`, `< 0.7`, `< 0.8`, `< 0.9`, else. -/
def bucketRange (c : ℚ) : String :=
  if c < 1 / 2 then "0-50%"
  else if c < 7 / 10 then "50-70%"
  else if c < 4 / 5 then "70-80%"
  else if c < 9 / 10 then "80-90%"
  else "90-100%"

/-- The five bucket labels in ascending string order — the order
`ORDER BY range` produces. -/
def confidenceRanges : List String :=
  ["0-50%", "50-70%", "70-80%", "80-90%", "90-100%"]

/-- The `get_confidence_distribution()`: bucket the non-NULL confidences by
`bucketRange`, count per bucket, keep only the buckets `GROUP BY`
materializes (the nonempty ones), in `ORDER BY range` (ascending string)
order. -/
def get_confidence_distribution (db : Db) : List (String × ℕ) :=
  (confidenceRanges.map (fun rg =>
    (rg, ((db.predictions.filterMap (fun r => r.confidence)).filter
      (fun c => bucketRange c == rg)).length))).filter
    (fun p => decide (0 < p.2))

/- ========= Layer lookup (src/utils/grad_cam.py, GradCAM._get_layer) ====== -/

/-- A PyTorch module viewed as a tree of named submodules (the attribute
structure `getattr` walks for dot-paths such as `"layer4"` or
`"layer4.1.conv2"`). -/
inductive PyModule where
  | node : List (String × PyModule) → PyModule

/-- The named children of a module. -/
def PyModule.children : PyModule → List (String × PyModule)
  | node s => s

/-- The `for part in name.split('.'): mod = getattr(mod, part)` loop:
follow each path component; a missing attribute raises `AttributeError`,
modelled as `none`. -/
def getattrChain : PyModule → List String → Option PyModule
  | m, [] => some m
  | m, p :: ps =>
    match (PyModule.children m).lookup p with
    | none => none
    | some m' => getattrChain m' ps

/-- Helper for `splitDot`: walk the characters, cutting at each `'.'`. -/
def splitDotAux : List Char → List Char → List String
  | [], acc => [String.mk acc.reverse]
  | c :: rest, acc =>
    if c = '.' then String.mk acc.reverse :: splitDotAux rest []
    else splitDotAux rest (c :: acc)

/-- Python's `name.split('.')` (split on an explicit separator: adjacent
separators and an empty string yield empty components). -/
def splitDot (s : String) : List String :=
  splitDotAux s.data []

/-- The `GradCAM._get_layer(name)`: resolve the dot-path on the model. -/
def GradCAM_get_layer (model : PyModule) (name : String) : Option PyModule :=
  getattrChain model (splitDot name)

/-- A constructed `GradCAM` instance: the resolved target layer, with the
hooks registered on it. -/
structure GradCAMState where
  target_layer : PyModule
  hooks_registered : Bool

/-- The `GradCAM.__init__(model, target_layer_name)`: `_get_layer` runs before
`_register_hooks`, and nothing catches its `AttributeError`, so an invalid
path aborts construction — the error propagates and no instance exists. -/
def GradCAM_init (model : PyModule) (target_layer_name : String) :
    Except String GradCAMState :=
  match GradCAM_get_layer model target_layer_name with
  | none => Except.error ("AttributeError: " ++ target_layer_name)
  | some layer => Except.ok { target_layer := layer, hooks_registered := true }

/-- A torchvision-resnet-shaped module tree: `conv1`, `layer1`…`layer4`,
`fc`. -/
def toyResNet : PyModule :=
  PyModule.node
    [("conv1", PyModule.node []),
     ("layer1", PyModule.node []),
     ("layer2", PyModule.node []),
     ("layer3", PyModule.node []),
     ("layer4", PyModule.node [("0", PyModule.node []), ("1", PyModule.node [])]),
     ("fc", PyModule.node [])]

/- ============================== Theorems ================================= -/

/-- C2: for every input image, the preprocessing transform crops the
largest centered square — side `m = min w h` at `left = (w-m)/2`,
`top = (h-m)/2`, with pixel `(x,y)` of the crop coming from
`(left+x, top+y)` of the source — and resizes it to 224×224, so the
output always has width and height 224 (and the pixel type is an RGB
triple, i.e. 3 channels), regardless of the input aspect ratio. -/
theorem center_crop_resize_spec (img : Img) :
    (center_crop_resize img 224).w = 224 ∧
    (center_crop_resize img 224).h = 224 ∧
    (let m := min img.w img.h
     let left := (img.w - m) / 2
     let top := (img.h - m) / 2
     let cropped := img.crop left top (left + m) (top + m)
     cropped.w = m ∧ cropped.h = m ∧
     (∀ x y, cropped.px x y = img.px (left + x) (top + y)) ∧
     center_crop_resize img 224 = cropped.resize 224 224) := by
  refine ⟨rfl, rfl, ?_, ?_, fun x y => rfl, rfl⟩
  · simp [Img.crop]
  · simp [Img.crop]

/-- C8: on an initialized but empty store, every modelled analytics
aggregation returns the zero/empty value of its result type — 0 totals,
0 averages, empty lists, a zeroed summary and a zeroed accuracy record —
and, being a total function of the store, cannot raise. -/
theorem analytics_empty_store :
    get_total_users emptyDb = 0 ∧
    get_total_predictions emptyDb = 0 ∧
    get_predictions_by_class emptyDb = [] ∧
    get_average_confidence emptyDb = 0 ∧
    get_confidence_distribution emptyDb = [] ∧
    get_feedback_stats emptyDb = [("total", 0)] ∧
    get_model_performance_summary emptyDb =
      { total_predictions := 0, average_confidence := 0, min_confidence := 0,
        max_confidence := 0, class_distribution := [],
        average_processing_time_ms := 0 } ∧
    get_model_accuracy_with_feedback emptyDb =
      { total_reviewed := 0, correct_count := 0, incorrect_count := 0,
        accuracy := 0, sample_size := 0 } :=
  ⟨rfl, rfl, rfl, rfl, rfl, rfl, rfl, rfl⟩

/-- C9: a `target_layer_name` whose dot-path does not resolve to an
attribute of the model makes `GradCAM.__init__` fail fast with an
attribute-lookup error surfaced to the caller, and no `GradCAM` instance
is produced. -/
theorem gradcam_invalid_layer_fails (model : PyModule) (name : String)
    (hbad : GradCAM_get_layer model name = none) :
    GradCAM_init model name = Except.error ("AttributeError: " ++ name) ∧
    ∀ st, GradCAM_init model name ≠ Except.ok st := by
  unfold GradCAM_init
  rw [hbad]
  exact ⟨rfl, fun st h => Except.noConfusion h⟩

/-- Witness for C9: on a resnet-shaped model, the path `"layer5"` does not
resolve, and construction errors out. -/
theorem gradcam_invalid_layer_fails_witness :
    GradCAM_init toyResNet "layer5" = Except.error ("AttributeError: " ++ "layer5") ∧
    ∀ st, GradCAM_init toyResNet "layer5" ≠ Except.ok st :=
  gradcam_invalid_layer_fails toyResNet "layer5" rfl

/-- C6: registering a username that already exists returns `False` from
`create_user` — the `sqlite3.IntegrityError` from the UNIQUE constraint is
caught and converted, never propagated — and leaves the user table exactly
as it was (no half-written record).  Concretely: registering `alice` succeeds,
registering `alice` again fails, `alice` authenticates with the original
password and fails with a wrong one. -/
theorem create_user_duplicate_and_scenario :
    (∀ (db : Db) (u p : String) (h : BcryptHash), (u, h) ∈ db.users →
      create_user db u p = (false, db)) ∧
    ((create_user emptyDb "alice" "Str0ng!Pass").1 = true ∧
     (create_user (create_user emptyDb "alice" "Str0ng!Pass").2 "alice" "Other1!Pw").1 = false ∧
     (create_user (create_user emptyDb "alice" "Str0ng!Pass").2 "alice" "Other1!Pw").2 =
       (create_user emptyDb "alice" "Str0ng!Pass").2 ∧
     authenticate_user (create_user emptyDb "alice" "Str0ng!Pass").2 "alice" "Str0ng!Pass" = true ∧
     authenticate_user (create_user emptyDb "alice" "Str0ng!Pass").2 "alice" "wrong" = false) := by
  constructor
  · intro db u p h hmem
    have hany : db.users.any (fun x => x.1 == u) = true :=
      List.any_eq_true.mpr ⟨(u, h), hmem, by simp⟩
    simp [create_user, hany]
  · exact ⟨rfl, rfl, rfl, rfl, rfl⟩

/-- Witness for C6: the duplicate-registration branch at a concrete store
already containing `alice`. -/
theorem create_user_duplicate_witness :
    create_user (create_user emptyDb "alice" "Str0ng!Pass").2 "alice" "Other1!Pw" =
      (false, (create_user emptyDb "alice" "Str0ng!Pass").2) :=
  create_user_duplicate_and_scenario.1 _ "alice" "Other1!Pw"
    (bcryptHashpw "Str0ng!Pass" 0) (by decide)

/-- Unfolding of the `_ensure_prediction_columns` loop: with a snapshot
taken up front, the loop adds exactly the wanted columns missing from the
snapshot, in order, and never hits a duplicate-add error as long as the
missing names are new to the table and mutually distinct. -/
lemma ensureColumnsLoop_eq (wanted : List (String × String)) :
    ∀ (snapshot cols : List String),
      (∀ c ∈ (wanted.filter (fun cw => decide (cw.1 ∉ snapshot))).map Prod.fst, c ∉ cols) →
      ((wanted.filter (fun cw => decide (cw.1 ∉ snapshot))).map Prod.fst).Nodup →
      ensureColumnsLoop snapshot wanted cols =
        some (cols ++ (wanted.filter (fun cw => decide (cw.1 ∉ snapshot))).map Prod.fst) := by
  induction wanted with
  | nil =>
    intro snapshot cols _ _
    simp [ensureColumnsLoop]
  | cons cw rest ih =>
    intro snapshot cols hnotin hnodup
    by_cases hc : cw.1 ∈ snapshot
    · rw [ensureColumnsLoop, if_pos hc]
      have hfilter :
          (cw :: rest).filter (fun x => decide (x.1 ∉ snapshot)) =
            rest.filter (fun x => decide (x.1 ∉ snapshot)) := by
        simp [List.filter_cons, hc]
      rw [hfilter] at hnotin hnodup ⊢
      exact ih snapshot cols hnotin hnodup
    · have hfilter :
          (cw :: rest).filter (fun x => decide (x.1 ∉ snapshot)) =
            cw :: rest.filter (fun x => decide (x.1 ∉ snapshot)) := by
        simp [List.filter_cons, hc]
      rw [hfilter] at hnotin hnodup
      rw [List.map_cons] at hnotin hnodup
      have hnew : cw.1 ∉ cols := hnotin cw.1 (List.mem_cons_self _ _)
      have hstep : ensureColumnsLoop snapshot (cw :: rest) cols =
          ensureColumnsLoop snapshot rest (cols ++ [cw.1]) := by
        rw [ensureColumnsLoop, if_neg hc, alterAddColumn, if_neg hnew]
      have hnotin' :
          ∀ c ∈ (rest.filter (fun x => decide (x.1 ∉ snapshot))).map Prod.fst,
            c ∉ cols ++ [cw.1] := by
        intro c hcmem
        have hne : c ≠ cw.1 := by
          intro heq
          exact (List.nodup_cons.mp hnodup).1 (heq ▸ hcmem)
        have hnc : c ∉ cols := hnotin c (List.mem_cons_of_mem _ hcmem)
        simp [hnc, hne]
      have hrec := ih snapshot (cols ++ [cw.1]) hnotin' (List.nodup_cons.mp hnodup).2
      rw [hstep, hrec, hfilter]
      simp

/-- The `_ensure_prediction_columns` never fails, and appends exactly the
wanted columns missing from the current table. -/
lemma ensurePredictionColumns_eq (cols : List String) :
    ensurePredictionColumns cols =
      some (cols ++
        (wantedColumns.filter (fun cw => decide (cw.1 ∉ cols))).map Prod.fst) := by
  apply ensureColumnsLoop_eq
  · intro c hcmem
    simp only [List.mem_map, List.mem_filter] at hcmem
    obtain ⟨x, ⟨_, hdec⟩, rfl⟩ := hcmem
    exact of_decide_eq_true hdec
  · exact List.Nodup.sublist ((List.filter_sublist wantedColumns).map Prod.fst)
      (by decide)

/-- After one successful run of `_ensure_prediction_columns`, a further
run finds every wanted column present and changes nothing. -/
lemma ensurePredictionColumns_fixed (cols cols' : List String)
    (h : ensurePredictionColumns cols = some cols') :
    ensurePredictionColumns cols' = some cols' := by
  rw [ensurePredictionColumns_eq] at h
  have hcols' :
      cols' = cols ++
        (wantedColumns.filter (fun cw => decide (cw.1 ∉ cols))).map Prod.fst :=
    (Option.some.injEq _ _ ▸ h).symm
  have hall : ∀ cw ∈ wantedColumns, cw.1 ∈ cols' := by
    intro cw hcw
    by_cases hmem : cw.1 ∈ cols
    · rw [hcols']
      exact List.mem_append_left _ hmem
    · rw [hcols']
      refine List.mem_append_right _ ?_
      exact List.mem_map.mpr ⟨cw, List.mem_filter.mpr ⟨hcw, decide_eq_true hmem⟩, rfl⟩
  have hempty :
      wantedColumns.filter (fun cw => decide (cw.1 ∉ cols')) = [] := by
    rw [List.filter_eq_nil_iff]
    intro cw hcw
    simp [hall cw hcw]
  rw [ensurePredictionColumns_eq, hempty]
  simp

/-- C5: `_ensure_prediction_columns` is idempotent — for any starting
column set it succeeds, yielding a column set `cols'`; a second run on
`cols'` succeeds and returns `cols'` unchanged; and running the routine
`n + 1` times, for any `n`, yields the same `cols'` as running it once,
never failing along the way. -/
theorem ensure_prediction_columns_idempotent (cols : List String) :
    ∃ cols', ensurePredictionColumns cols = some cols' ∧
      ensurePredictionColumns cols' = some cols' ∧
      ∀ n : ℕ, ensurePredictionColumnsIter (n + 1) cols = some cols' := by
  refine ⟨_, ensurePredictionColumns_eq cols, ?_, ?_⟩
  · exact ensurePredictionColumns_fixed _ _ (ensurePredictionColumns_eq cols)
  · intro n
    have hfix := ensurePredictionColumns_fixed _ _ (ensurePredictionColumns_eq cols)
    have haux : ∀ m,
        ensurePredictionColumnsIter m
          (cols ++ (wantedColumns.filter (fun cw => decide (cw.1 ∉ cols))).map Prod.fst) =
        some (cols ++ (wantedColumns.filter (fun cw => decide (cw.1 ∉ cols))).map Prod.fst) := by
      intro m
      induction m with
      | zero => rfl
      | succ k ihk =>
        rw [ensurePredictionColumnsIter, hfix]
        exact ihk
    rw [ensurePredictionColumnsIter, ensurePredictionColumns_eq cols]
    exact haux n

/-- C1: every value of the saliency map returned by `GradCAM.__call__`
lies in `[0, 1]` — the raw map is clamped nonnegative by the ReLU, and the
min-max normalization's denominator is guarded by `1e-8` — and the result
is the 2-D `(H+1) × (W+1)` map of the target layer's spatial resolution
(its index type), for every choice of `class_idx`, supplied or defaulted
to the model's top prediction. -/
theorem gradcam_output_unit_interval (C H W : ℕ) (act : Tensor3 C H W)
    (gradOf : ℕ → Tensor3 C H W) (argmaxIdx : ℕ) (class_idx : Option ℕ)
    (i : Fin (H + 1)) (j : Fin (W + 1)) :
    0 ≤ gradCamCall C H W act gradOf argmaxIdx class_idx i j ∧
      gradCamCall C H W act gradOf argmaxIdx class_idx i j ≤ 1 := by
  unfold gradCamCall camNorm
  set g := gradOf (class_idx.getD argmaxIdx) with hg
  have hmem : ((i, j) : Fin (H + 1) × Fin (W + 1)) ∈
      (Finset.univ : Finset (Fin (H + 1) × Fin (W + 1))) := Finset.mem_univ _
  have hmin : camMin C H W act g ≤ camRaw C H W act g i j :=
    Finset.inf'_le (fun p : Fin (H + 1) × Fin (W + 1) => camRaw C H W act g p.1 p.2) hmem
  have hmax : camRaw C H W act g i j ≤ camMax C H W act g :=
    Finset.le_sup' (fun p : Fin (H + 1) × Fin (W + 1) => camRaw C H W act g p.1 p.2) hmem
  have heps : (0 : ℚ) < camEps := by norm_num [camEps]
  have hdpos : 0 < camMax C H W act g - camMin C H W act g + camEps := by linarith
  constructor
  · exact div_nonneg (by linarith) hdpos.le
  · exact (div_le_one hdpos).mpr (by linarith)

/-- A rational that is the cast of a byte value `0 ≤ n ≤ 255` — the range
of a `uint8` array cell. -/
def isUint8Val (q : ℚ) : Prop :=
  ∃ n : ℕ, n ≤ 255 ∧ q = (n : ℚ)

/-- The saturating cast always lands on a byte value. -/
lemma satCastU8_isUint8 (q : ℚ) : isUint8Val (satCastU8 q) :=
  ⟨min 255 (Int.toNat ⌊q + 1 / 2⌋), Nat.min_le_left _ _, rfl⟩

/-- The `np.uint8` of anything is a value in `[0, 255]`. -/
lemma npUint8_range (q : ℚ) : 0 ≤ npUint8 q ∧ npUint8 q ≤ 255 := by
  unfold npUint8
  constructor
  · positivity
  · have h1 : truncToInt q % 256 < 256 := Int.emod_lt_of_pos _ (by norm_num)
    have h2 : (truncToInt q % 256).toNat ≤ 255 := by omega
    exact_mod_cast h2

/-- C3: `overlay_heatmap` returns an image of the original's height and
width with 3 channels (the `Mat3 h w` type of the result), every channel a
`uint8` value, computed per pixel as the alpha-blend
`saturate(round((1-α)·base + α·colorized))` — where `base` is the original
image in its `uint8` representation (the source's max-value rule, the
subject of the companion base-rule theorem) and `colorized` is the
saliency map resized to `(w, h)`, scaled to `[0, 255]` by
`np.uint8(255 · ·)`, color-mapped, and converted to the source's RGB
channel order.  The byte-range bound on the scaled map holds for every
input. -/
theorem overlay_heatmap_spec (h w sh sw : ℕ) (cmap : ℚ → ℚ × ℚ × ℚ)
    (image_rgb : Mat3 h w) (heatmap : Mat1 sh sw) (alpha : ℚ)
    (i : Fin (h + 1)) (j : Fin (w + 1)) :
    ((overlay_heatmap h w sh sw cmap image_rgb heatmap alpha).px i j).1 =
      addWeighted1 (1 - alpha) ((overlayBase h w image_rgb).px i j).1 alpha
        (bgr2rgb (cmap (npUint8 (255 * (cvResize sh sw heatmap h w).px i j)))).1 ∧
    ((overlay_heatmap h w sh sw cmap image_rgb heatmap alpha).px i j).2.1 =
      addWeighted1 (1 - alpha) ((overlayBase h w image_rgb).px i j).2.1 alpha
        (bgr2rgb (cmap (npUint8 (255 * (cvResize sh sw heatmap h w).px i j)))).2.1 ∧
    ((overlay_heatmap h w sh sw cmap image_rgb heatmap alpha).px i j).2.2 =
      addWeighted1 (1 - alpha) ((overlayBase h w image_rgb).px i j).2.2 alpha
        (bgr2rgb (cmap (npUint8 (255 * (cvResize sh sw heatmap h w).px i j)))).2.2 ∧
    isUint8Val ((overlay_heatmap h w sh sw cmap image_rgb heatmap alpha).px i j).1 ∧
    isUint8Val ((overlay_heatmap h w sh sw cmap image_rgb heatmap alpha).px i j).2.1 ∧
    isUint8Val ((overlay_heatmap h w sh sw cmap image_rgb heatmap alpha).px i j).2.2 ∧
    (∀ q : ℚ, 0 ≤ npUint8 q ∧ npUint8 q ≤ 255) :=
  ⟨rfl, rfl, rfl, satCastU8_isUint8 _, satCastU8_isUint8 _, satCastU8_isUint8 _,
   npUint8_range⟩

/-- A constant image, every channel of every pixel equal to `q`. -/
def constMat3 (h w : ℕ) (q : ℚ) : Mat3 h w :=
  { px := fun _ _ => (q, q, q) }

/-- C10: `overlay_heatmap` decides whether to rescale the base image
solely by the maximum value of the array, never by its dtype: whenever the
maximum entry is ≤ 1 — including a `uint8` image that is nearly black,
e.g. every channel equal to 1 — the base is the image times 255 cast to
`uint8`; whenever the maximum exceeds 1 the base is the image cast to
`uint8` unscaled.  Concretely, the all-ones image becomes all-255 and the
all-twos image stays all-twos. -/
theorem overlay_base_max_rule (h w : ℕ) (image_rgb : Mat3 h w) :
    (matMax h w image_rgb ≤ 1 →
      overlayBase h w image_rgb =
        { px := fun i j => mapTriple (fun q => npUint8 (q * 255)) (image_rgb.px i j) }) ∧
    (1 < matMax h w image_rgb →
      overlayBase h w image_rgb =
        { px := fun i j => mapTriple npUint8 (image_rgb.px i j) }) ∧
    (∀ (i : Fin (h + 1)) (j : Fin (w + 1)),
      (overlayBase h w (constMat3 h w 1)).px i j = (255, 255, 255)) ∧
    (∀ (i : Fin (h + 1)) (j : Fin (w + 1)),
      (overlayBase h w (constMat3 h w 2)).px i j = (2, 2, 2)) := by
  refine ⟨?_, ?_, ?_, ?_⟩
  · intro hm
    rw [overlayBase, if_pos hm]
  · intro hm
    rw [overlayBase, if_neg (not_le.mpr hm)]
  · intro i j
    have hmax : matMax h w (constMat3 h w 1) = 1 := by
      simp [matMax, constMat3]
    rw [overlayBase, if_pos (le_of_eq hmax)]
    show mapTriple (fun q => npUint8 (q * 255)) ((1 : ℚ), (1 : ℚ), (1 : ℚ)) = _
    norm_num [mapTriple, npUint8, truncToInt]
    simp
  · intro i j
    have hmax : matMax h w (constMat3 h w 2) = 2 := by
      simp [matMax, constMat3]
    rw [overlayBase, if_neg (by rw [hmax]; norm_num)]
    show mapTriple npUint8 ((2 : ℚ), (2 : ℚ), (2 : ℚ)) = _
    norm_num [mapTriple, npUint8, truncToInt]
    simp

/-- Witness for C10: the nearly-black all-ones 1×1 image takes the
rescale branch. -/
theorem overlay_base_max_rule_witness :
    overlayBase 0 0 (constMat3 0 0 1) =
      { px := fun i j =>
          mapTriple (fun q => npUint8 (q * 255)) ((constMat3 0 0 1).px i j) } :=
  (overlay_base_max_rule 0 0 (constMat3 0 0 1)).1
    (by simp [matMax, constMat3])

/-- The `LogArgs` carrying only a confidence (all optional columns omitted). -/
def sampleConfArgs (c : ℚ) : LogArgs :=
  { filename := "scan.png", predicted_label := "Benign", confidence := c,
    user := none, model_version := none, probabilities := none,
    patient_id := none, processing_time_ms := none }

/-- A store holding exactly the confidences 0.3, 0.55, 0.75, 0.85, 0.95,
inserted through `log_prediction`. -/
def dbFiveConfidences : Db :=
  [(3 : ℚ) / 10, 55 / 100, 75 / 100, 85 / 100, 95 / 100].foldl
    (fun db c => (log_prediction db (sampleConfArgs c)).2) emptyDb

/-- The five sample confidences land in the five distinct buckets. -/
lemma bucketRange_sample_values :
    bucketRange (3 / 10) = "0-50%" ∧ bucketRange (55 / 100) = "50-70%" ∧
    bucketRange (75 / 100) = "70-80%" ∧ bucketRange (85 / 100) = "80-90%" ∧
    bucketRange (95 / 100) = "90-100%" := by
  refine ⟨?_, ?_, ?_, ?_, ?_⟩ <;> norm_num [bucketRange]

/-- The bucket of any confidence is one of the five labels. -/
lemma bucketRange_mem (c : ℚ) : bucketRange c ∈ confidenceRanges := by
  unfold bucketRange confidenceRanges
  split_ifs <;> simp

/-- Every confidence falls in exactly one of the five buckets. -/
lemma bucketRange_one_count (c : ℚ) :
    (confidenceRanges.map (fun rg => if bucketRange c == rg then 1 else 0)).sum = 1 := by
  have hmem := bucketRange_mem c
  simp only [confidenceRanges, List.mem_cons, List.not_mem_nil, or_false] at hmem
  rcases hmem with h | h | h | h | h <;> simp [confidenceRanges, h]

/-- Length of a filtered cons, as an indicator plus the tail count. -/
lemma length_filter_cons (p : ℚ → Bool) (c : ℚ) (vs : List ℚ) :
    ((c :: vs).filter p).length = (if p c then 1 else 0) + (vs.filter p).length := by
  by_cases hc : p c = true
  · simp [List.filter_cons, hc, Nat.add_comm]
  · simp [List.filter_cons, hc]

/-- Dropping the zero-count groups does not change the total count. -/
lemma sum_filter_pos (l : List (String × ℕ)) :
    ((l.filter (fun p => decide (0 < p.2))).map Prod.snd).sum = (l.map Prod.snd).sum := by
  induction l with
  | nil => rfl
  | cons x xs ih =>
    by_cases hx : 0 < x.2
    · simp [List.filter_cons, hx, ih]
    · have hx0 : x.2 = 0 := Nat.eq_zero_of_not_pos hx
      simp [List.filter_cons, hx, hx0, ih]

/-- The bucket counts partition the confidences: over every store the five
counts add up to the number of non-NULL confidences. -/
lemma counts_sum (vals : List ℚ) :
    ((confidenceRanges.map (fun rg =>
      (rg, (vals.filter (fun c => bucketRange c == rg)).length))).map Prod.snd).sum =
      vals.length := by
  induction vals with
  | nil => rfl
  | cons c vs ih =>
    have h1 := bucketRange_one_count c
    simp only [confidenceRanges, List.map_cons, List.map_nil, List.sum_cons,
      List.sum_nil] at h1 ih ⊢
    rw [length_filter_cons, length_filter_cons, length_filter_cons,
      length_filter_cons, length_filter_cons, List.length_cons]
    linarith

/-- C7: the confidence-bucket aggregation partitions predictions by the
fixed edges `<0.5`, `[0.5,0.7)`, `[0.7,0.8)`, `[0.8,0.9)`, `≥0.9` (for
every store, the bucket counts sum to the number of stored confidences),
and on the store holding exactly the confidences
`[0.3, 0.55, 0.75, 0.85, 0.95]` it returns one prediction per bucket. -/
theorem confidence_distribution_buckets :
    get_confidence_distribution dbFiveConfidences =
      [("0-50%", 1), ("50-70%", 1), ("70-80%", 1), ("80-90%", 1), ("90-100%", 1)] ∧
    ∀ db : Db, ((get_confidence_distribution db).map Prod.snd).sum =
      (db.predictions.filterMap (fun r => r.confidence)).length := by
  constructor
  · obtain ⟨hb1, hb2, hb3, hb4, hb5⟩ := bucketRange_sample_values
    have hpreds : dbFiveConfidences.predictions.filterMap (fun r => r.confidence) =
        [(3 : ℚ) / 10, 55 / 100, 75 / 100, 85 / 100, 95 / 100] := rfl
    unfold get_confidence_distribution
    simp only [hpreds]
    simp [confidenceRanges, List.filter_cons, hb1, hb2, hb3, hb4, hb5]
  · intro db
    unfold get_confidence_distribution
    rw [sum_filter_pos]
    exact counts_sum _

/-- JSON round-trip for the probabilities dict: decoding what
`json.dumps` produced recovers the dict exactly. -/
lemma jsonProbs_roundtrip (ps : List (String × ℚ)) :
    jsonLoadsProbs (jsonDumpsProbs ps) = some ps := by
  induction ps with
  | nil => rfl
  | cons kv rest ih =>
    simp only [jsonDumpsProbs, jsonLoadsProbs, List.map_cons] at ih ⊢
    rw [decodeProbEntries, ih]

/-- A row stamped later than every existing row sorts to the front of
`ORDER BY created_at DESC`. -/
lemma sortByCreatedDesc_newest_head (rows : List PredRow) (row : PredRow)
    (hwf : ∀ r ∈ rows, r.created_at < row.created_at) :
    ∃ rest, sortByCreatedDesc (rows ++ [row]) = row :: rest := by
  have hperm : (sortByCreatedDesc (rows ++ [row])).Perm (rows ++ [row]) :=
    List.perm_insertionSort createdDesc _
  have hsorted : List.Sorted createdDesc (sortByCreatedDesc (rows ++ [row])) :=
    List.sorted_insertionSort createdDesc _
  have hrowmem : row ∈ sortByCreatedDesc (rows ++ [row]) :=
    hperm.mem_iff.mpr (by simp)
  rcases hsl : sortByCreatedDesc (rows ++ [row]) with _ | ⟨h0, t⟩
  · rw [hsl] at hrowmem
    exact absurd hrowmem (List.not_mem_nil row)
  · refine ⟨t, ?_⟩
    by_cases heq : h0 = row
    · rw [heq]
    exfalso
    rw [hsl] at hperm hsorted hrowmem
    have hh0mem : h0 ∈ rows ++ [row] := hperm.mem_iff.mp (List.mem_cons_self _ _)
    have hh0rows : h0 ∈ rows := by
      rcases List.mem_append.mp hh0mem with h | h
      · exact h
      · exact absurd (List.mem_singleton.mp h) heq
    have hlt : h0.created_at < row.created_at := hwf h0 hh0rows
    have hrowt : row ∈ t := by
      rcases List.mem_cons.mp hrowmem with h | h
      · exact absurd h.symm heq
      · exact h
    have hle : row.created_at ≤ h0.created_at :=
      (List.sorted_cons.mp hsorted).1 row hrowt
    omega

/-- C4: any prediction inserted by `log_prediction` with a probabilities
mapping is returned first by a subsequent
`get_recent_predictions_full` read (any positive limit), with
`predicted_label`, `confidence`, and the JSON-round-tripped
`probabilities` equal to the inserted values exactly. -/
theorem log_prediction_roundtrip (db : Db) (a : LogArgs) (ps : List (String × ℚ))
    (k : ℕ) (hwf : DbWf db) (hps : a.probabilities = some ps) :
    ∃ rest,
      get_recent_predictions_full (log_prediction db a).2 (k + 1) =
        decodeFullRow (logPredictionRow db a) :: rest ∧
      (decodeFullRow (logPredictionRow db a)).predicted_label = a.predicted_label ∧
      (decodeFullRow (logPredictionRow db a)).confidence = some a.confidence ∧
      (decodeFullRow (logPredictionRow db a)).probabilities = some ps := by
  have hwf' : ∀ r ∈ db.predictions, r.created_at < (logPredictionRow db a).created_at :=
    fun r hr => hwf r hr
  obtain ⟨rest', hsort⟩ := sortByCreatedDesc_newest_head db.predictions
    (logPredictionRow db a) hwf'
  refine ⟨(rest'.take k).map decodeFullRow, ?_, rfl, rfl, ?_⟩
  · show ((sortByCreatedDesc (db.predictions ++ [logPredictionRow db a])).take
      (k + 1)).map decodeFullRow = _
    rw [hsort]
    rfl
  · show (match (logPredictionRow db a).probabilities with
      | none => none
      | some j => jsonLoadsProbs j) = some ps
    show (match a.probabilities.map jsonDumpsProbs with
      | none => none
      | some j => jsonLoadsProbs j) = some ps
    rw [hps]
    exact jsonProbs_roundtrip ps

/-- The prediction record of the C4 witness: all optional fields present. -/
def sampleLogArgs : LogArgs :=
  { filename := "scan.png", predicted_label := "Benign", confidence := 9 / 10,
    user := some "alice", model_version := some "v1",
    probabilities := some [("Normal", 1 / 20), ("Benign", 9 / 10), ("Malignant", 1 / 20)],
    patient_id := none, processing_time_ms := some 42 }

/-- Witness for C4: insert one fully-populated record into the empty store
and read it back with limit 1. -/
theorem log_prediction_roundtrip_witness :
    ∃ rest,
      get_recent_predictions_full (log_prediction emptyDb sampleLogArgs).2 1 =
        decodeFullRow (logPredictionRow emptyDb sampleLogArgs) :: rest ∧
      (decodeFullRow (logPredictionRow emptyDb sampleLogArgs)).predicted_label =
        sampleLogArgs.predicted_label ∧
      (decodeFullRow (logPredictionRow emptyDb sampleLogArgs)).confidence =
        some sampleLogArgs.confidence ∧
      (decodeFullRow (logPredictionRow emptyDb sampleLogArgs)).probabilities =
        some [("Normal", 1 / 20), ("Benign", 9 / 10), ("Malignant", 1 / 20)] :=
  log_prediction_roundtrip emptyDb sampleLogArgs
    [("Normal", 1 / 20), ("Benign", 9 / 10), ("Malignant", 1 / 20)] 0
    (fun r hr => absurd hr (List.not_mem_nil r)) rfl
